import Mathlib

/-!
Verification of the persistence layer of the movie-rating application
(`db/index.js` together with `helpers/slugify.js`).

The JavaScript source is shallowly embedded: the SQLite-backed store becomes
an explicit `Store` record, each exported store function becomes a pure Lean
function on `Store` (mutating functions return the new store next to the
value the JavaScript function returns), and the `if (!db) return …` fallback
values of the original functions are modelled as separate `…NoDb`
definitions.  Schema-level guarantees from the migration DDL (primary keys,
the case-insensitive unique e-mail index, `ON DELETE CASCADE`, `CHECK`
constraints) are modelled where the behaviour of a function depends on them.
-/

namespace MovieApp

/-! ## Slug normalization (`helpers/slugify.js`)

```js
return String(input)
  .normalize('NFKD')                    // Separate accents (ä -> a + ¨)
  .replace(/[u0300-u036f]/g, '')      // Remove combining characters
  .toLowerCase()
  .replace(/&/g, ' und ')               // Replace & with 'und'
  .replace(/[^a-z0-9]+/g, '-')          // Replace non-alphanumeric with -
  .replace(/^-+|-+$/g, '')              // Remove leading/trailing dashes
  .replace(/[-]{2,}/g, '-');              // Replace multiple dashes with single
```
-/

/-- A combining diacritical mark, the range removed by
`.replace(/[u0300-u036f]/g, '')`. -/
def isCombining (c : Char) : Bool :=
  0x300 ≤ c.toNat && c.toNat ≤ 0x36f

/-- Character-level model of `String.prototype.normalize('NFKD')`.
Unicode NFKD is the identity on every ASCII character; the table lists the
decompositions (base letter followed by a combining mark) of the non-ASCII
characters appearing in the repository's data and examples. -/
def nfkdChar (c : Char) : List Char :=
  if c.toNat < 0x80 then [c]
  else if c = 'ä' then ['a', '\u0308']
  else if c = 'ö' then ['o', '\u0308']
  else if c = 'ü' then ['u', '\u0308']
  else if c = 'Ä' then ['A', '\u0308']
  else if c = 'Ö' then ['O', '\u0308']
  else if c = 'Ü' then ['U', '\u0308']
  else if c = 'é' then ['e', '\u0301']
  else if c = 'è' then ['e', '\u0300']
  else if c = 'à' then ['a', '\u0300']
  else if c = 'â' then ['a', '\u0302']
  else if c = 'ç' then ['c', '\u0327']
  else [c]

/-- The character class `[a-z0-9]`, the characters a slug keeps. -/
def isSlugAlnum (c : Char) : Bool :=
  (97 ≤ c.toNat && c.toNat ≤ 122) || (48 ≤ c.toNat && c.toNat ≤ 57)

/-- `.replace(/&/g, ' und ')`. -/
def replaceAmp (s : List Char) : List Char :=
  s.flatMap fun c => if c = '&' then [' ', 'u', 'n', 'd', ' '] else [c]

/-- `.replace(/[^a-z0-9]+/g, '-')`: every maximal run of characters outside
`[a-z0-9]` is replaced by a single hyphen.  The boolean flag records whether
the previous character was part of such a run (in which case the hyphen for
the run has already been emitted). -/
def dashRunsAux : Bool → List Char → List Char
  | _, [] => []
  | inRun, c :: cs =>
    if isSlugAlnum c then c :: dashRunsAux false cs
    else if inRun then dashRunsAux true cs
    else '-' :: dashRunsAux true cs

/-- `.replace(/[^a-z0-9]+/g, '-')`. -/
def dashRuns (s : List Char) : List Char :=
  dashRunsAux false s

/-- `.replace(/^-+|-+$/g, '')`: drop the leading run and the trailing run of
hyphens. -/
def trimDashes (s : List Char) : List Char :=
  ((s.dropWhile fun c => c == '-').reverse.dropWhile fun c => c == '-').reverse

/-- `.replace(/[-]{2,}/g, '-')`.  The flag records whether the previous emitted
character was a hyphen; a run of `n ≥ 1` hyphens becomes a single hyphen,
which agrees with the regex (it rewrites runs of length `≥ 2` to `-` and
leaves single hyphens alone). -/
def collapseAux : Bool → List Char → List Char
  | _, [] => []
  | prevDash, c :: cs =>
    if c == '-' then
      if prevDash then collapseAux true cs else '-' :: collapseAux true cs
    else c :: collapseAux false cs

/-- `.replace(/[-]{2,}/g, '-')`. -/
def collapseDashes (s : List Char) : List Char :=
  collapseAux false s

/-- The whole normalization pipeline of `slugify` on character lists,
in the order of the source. -/
def slugifyCore (s : List Char) : List Char :=
  collapseDashes (trimDashes (dashRuns (replaceAmp
    (((s.flatMap nfkdChar).filter fun c => !isCombining c).map Char.toLower))))

/-- `slugify` from `helpers/slugify.js`; `if (!input) return ''` is the
guard for the empty string. -/
def slugify (s : String) : String :=
  if s = "" then "" else String.mk (slugifyCore s.data)

/-! ### Properties of the normalization pipeline -/
/-- The characters a finished slug may contain: `[a-z0-9]` or `-`. -/
def goodChar (c : Char) : Bool :=
  isSlugAlnum c || c == '-'
/-- No two adjacent hyphens. -/
def noDD : List Char → Bool
  | [] => true
  | [_] => true
  | a :: b :: cs => !(a == '-' && b == '-') && noDD (b :: cs)
/-- A canonical slug: only slug characters, no adjacent hyphens, and no
hyphen at either end. -/
def Canon (l : List Char) : Prop :=
  (∀ c ∈ l, goodChar c = true) ∧ noDD l = true ∧
    l.head? ≠ some '-' ∧ l.getLast? ≠ some '-'

/-! ## The relational store (`db/index.js`)

The SQLite database is modelled as a `Store` record holding the rows of the
four tables, the `AUTOINCREMENT` counters, and a logical clock standing in
for `datetime('now')` (timestamp text is only ever compared for order, so it
is modelled as a `Nat`; writes bump the clock, modelling the non-decreasing
wall clock).  Each exported function of `db/index.js` becomes a pure
function on `Store`; functions that mutate the database return the updated
store next to the value the JavaScript function returns, and a statement
that the SQLite driver would reject returns `Except.error` with the store
unchanged.  The `CHECK` constraints on `role` and `category` and the
`NOCASE` unique e-mail index from the migration DDL are modelled; the
`owner_id`/`user_id` foreign keys and `NOT NULL` constraints are not
enforced at write time (no claim depends on them), while the `ON DELETE
CASCADE` behaviour of the `likes`/`favorites` foreign keys is part of
`deleteContentById`. -/

/-- A row of `users` (columns in DDL order; `email` and `password_hash` are
nullable columns added by `ALTER TABLE`). -/
structure UserRow where
  id : Nat
  name : String
  role : String
  created_at : Nat
  email : Option String
  password_hash : Option String
  deriving Repr, DecidableEq

/-- A row of `contents` (the nullable `slug` column is added by
`ALTER TABLE`; after migration backfill it is always set, so it is modelled
as a plain `String`). -/
structure ContentRow where
  id : Nat
  title : String
  description : String
  category : String
  image_path : String
  owner_id : Nat
  created_at : Nat
  slug : String
  deriving Repr, DecidableEq

/-- A row of `likes` or of `favorites` (both tables have the same shape:
a `(user_id, content_id)` pair with a timestamp). -/
structure PairRow where
  user_id : Nat
  content_id : Nat
  created_at : Nat
  deriving Repr, DecidableEq

/-- The database state. -/
structure Store where
  users : List UserRow
  contents : List ContentRow
  likes : List PairRow
  favorites : List PairRow
  nextUserId : Nat
  nextContentId : Nat
  now : Nat
  deriving Repr, DecidableEq

/-- `CHECK(category IN ('sifi','krimi','horror','komoedie'))` from the
`contents` DDL. -/
def CATEGORIES : List String := ["sifi", "krimi", "horror", "komoedie"]

/-- `CHECK(role IN ('admin','user','editor'))` from the `users` DDL. -/
def ROLES : List String := ["admin", "user", "editor"]

/-- A write failure thrown by the SQLite driver. -/
inductive DbError where
  | uniqueViolation
  | checkViolation
  deriving Repr, DecidableEq

/-! ### Users -/

/-- `ORDER BY id ASC`. -/
def userIdLe (a b : UserRow) : Prop := a.id ≤ b.id

instance : DecidableRel userIdLe := fun a b => by unfold userIdLe; exact inferInstance

/-- The row shape returned by `getAllUsers`: no `password_hash`, and
`email: r.email || null` (a JS-falsy empty string becomes null). -/
structure UserListItem where
  id : Nat
  name : String
  role : String
  email : Option String
  createdAt : Nat
  deriving Repr, DecidableEq

/-- `getAllUsers`: `SELECT id, name, role, email, created_at FROM users
ORDER BY id ASC`, mapped to plain records. -/
def getAllUsers (st : Store) : List UserListItem :=
  (st.users.insertionSort userIdLe).map fun r =>
    ⟨r.id, r.name, r.role,
      match r.email with
      | some e => if e = "" then none else some e
      | none => none,
      r.created_at⟩

/-- `insertUser`: plain insert with `role` defaulting to `'user'` at call
sites; subject to the `CHECK` on `role`. -/
def insertUser (st : Store) (name : String) (role : String) :
    Store × Except DbError Nat :=
  if role ∈ ROLES then
    ({ st with
        users := st.users ++ [⟨st.nextUserId, name, role, st.now, none, none⟩],
        nextUserId := st.nextUserId + 1, now := st.now + 1 },
      .ok st.nextUserId)
  else (st, .error .checkViolation)

/-- `getUserByEmail`: `SELECT id, name, role, email, password_hash,
created_at FROM users WHERE email = ?`.  The comparison `email = ?` uses the
column's default BINARY collation — the NOCASE collation belongs only to the
expression of the unique index and does not change the semantics of this
query — so the lookup is case-sensitive, and a NULL email never compares
equal to the parameter. -/
def getUserByEmail (st : Store) (email : String) : Option UserRow :=
  st.users.find? fun u => u.email == some email

/-- ASCII case folding: SQLite's NOCASE collation folds exactly the 26
ASCII letters `A`–`Z`, which is what `Char.toLower` does character by
character. -/
def foldCase (s : String) : String := String.mk (s.data.map Char.toLower)

/-- The conflict test of the unique index `idx_users_email_nocase
ON users(email COLLATE NOCASE)`: two non-null emails collide when they agree
up to ASCII case folding (`foldCase`); NULL emails are exempt (in SQLite
each NULL is distinct for unique indexes). -/
def emailConflict (st : Store) (email : Option String) : Bool :=
  match email with
  | none => false
  | some e => st.users.any fun u =>
      match u.email with
      | some e0 => foldCase e0 == foldCase e
      | none => false

/-- `createUser({name, email, passwordHash, role = 'user'})`: INSERT subject
to the `CHECK` on `role` and the NOCASE unique index on `email`. -/
def createUser (st : Store) (name : String) (email : Option String)
    (passwordHash : Option String) (role : String) : Store × Except DbError Nat :=
  if role ∈ ROLES then
    if emailConflict st email then (st, .error .uniqueViolation)
    else
      ({ st with
          users := st.users ++
            [⟨st.nextUserId, name, role, st.now, email, passwordHash⟩],
          nextUserId := st.nextUserId + 1, now := st.now + 1 },
        .ok st.nextUserId)
  else (st, .error .checkViolation)

/-! ### Contents -/

/-- The `LEFT JOIN users u ON u.id = c.owner_id` display-name column
(`NULL` when the owner row is missing). -/
def ownerNameOf (st : Store) (ownerId : Nat) : Option String :=
  (st.users.find? fun u => u.id == ownerId).map fun u => u.name

/-- The row shape of the content listings: content columns, the owning
user's name from the left join, and the like count aggregate. -/
structure ContentItem where
  id : Nat
  title : String
  description : String
  category : String
  imagePath : String
  slug : String
  ownerId : Nat
  ownerName : Option String
  likeCount : Nat
  createdAt : Nat
  deriving Repr, DecidableEq

/-- One listing row for content `c`: `(SELECT COUNT(*) FROM likes l WHERE
l.content_id = c.id)` is the correlated like count (the grouped-join variant
of `listContentsFiltered` computes the same number, with `COALESCE(_, 0)`
covering contents that have no like rows). -/
def contentItem (st : Store) (c : ContentRow) : ContentItem :=
  ⟨c.id, c.title, c.description, c.category, c.image_path, c.slug, c.owner_id,
    ownerNameOf st c.owner_id, st.likes.countP fun l => l.content_id == c.id,
    c.created_at⟩

/-- The row shape of `getContentBySlug` / `getContentById` (no like
count). -/
structure ContentDetail where
  id : Nat
  title : String
  description : String
  category : String
  imagePath : String
  slug : String
  ownerId : Nat
  ownerName : Option String
  createdAt : Nat
  deriving Repr, DecidableEq

/-- The record both single-content lookups build from a row. -/
def contentDetail (st : Store) (c : ContentRow) : ContentDetail :=
  ⟨c.id, c.title, c.description, c.category, c.image_path, c.slug, c.owner_id,
    ownerNameOf st c.owner_id, c.created_at⟩

/-- `getContentBySlug`: `… WHERE c.slug = ? LIMIT 1`, or null. -/
def getContentBySlug (st : Store) (slug : String) : Option ContentDetail :=
  (st.contents.find? fun c => c.slug == slug).map (contentDetail st)

/-- `getContentById`: `… WHERE c.id = ? LIMIT 1`, or null. -/
def getContentById (st : Store) (id : Nat) : Option ContentDetail :=
  (st.contents.find? fun c => c.id == id).map (contentDetail st)

/-- The `exists` probe of `makeUniqueContentSlug`:
`SELECT 1 FROM contents WHERE slug = ? LIMIT 1`. -/
def slugTaken (st : Store) (s : String) : Bool :=
  st.contents.any fun c => c.slug == s

/-- The `let i = 2; while (exists(slug-i)) i++` loop of
`makeUniqueContentSlug`, probing `slug-i` for increasing `i`.  The loop is
given `st.contents.length + 1` probes of fuel: the probed candidates are
pairwise distinct strings and every taken candidate occupies a distinct
content row, so a free candidate is always reached before the fuel runs
out. -/
def findFreeSlug (st : Store) (slug : String) : Nat → Nat → String
  | i, 0 => slug ++ "-" ++ toString i
  | i, fuel + 1 =>
    if slugTaken st (slug ++ "-" ++ toString i) then
      findFreeSlug st slug (i + 1) fuel
    else slug ++ "-" ++ toString i

/-- `makeUniqueContentSlug`: `baseSlug || 'eintrag'` (a JS-falsy empty base
slug falls back to `'eintrag'`), returned as-is when unused, else suffixed
`-2`, `-3`, … until unused. -/
def makeUniqueContentSlug (st : Store) (baseSlug : String) : String :=
  let slug := if baseSlug = "" then "eintrag" else baseSlug
  if slugTaken st slug then findFreeSlug st slug 2 (st.contents.length + 1)
  else slug

/-- `insertContent({title, description, category, imagePath, ownerId})`:
generates the slug from the title, then INSERTs; the INSERT is subject to
the `CHECK` on `category`. -/
def insertContent (st : Store) (title description category imagePath : String)
    (ownerId : Nat) : Store × Except DbError Nat :=
  let slug := makeUniqueContentSlug st (slugify title)
  if category ∈ CATEGORIES then
    ({ st with
        contents := st.contents ++
          [⟨st.nextContentId, title, description, category, imagePath, ownerId,
            st.now, slug⟩],
        nextContentId := st.nextContentId + 1, now := st.now + 1 },
      .ok st.nextContentId)
  else (st, .error .checkViolation)

/-- `updateContent({id, title, description, category, imagePath})`: always
overwrites title/description/category of the rows matching `id`; overwrites
`image_path` only when `imagePath` is JS-truthy (present and non-empty).
The UPDATE is subject to the `CHECK` on `category`; `.changes` counts the
matched rows. -/
def updateContent (st : Store) (id : Nat) (title description category : String)
    (imagePath : Option String) : Store × Except DbError Nat :=
  if category ∈ CATEGORIES then
    match imagePath with
    | some p =>
      if p = "" then
        ({ st with
            contents := st.contents.map fun c =>
              if c.id == id then
                { c with title := title, description := description, category := category }
              else c },
          .ok (st.contents.countP fun c => c.id == id))
      else
        ({ st with
            contents := st.contents.map fun c =>
              if c.id == id then
                { c with title := title, description := description, category := category, image_path := p }
              else c },
          .ok (st.contents.countP fun c => c.id == id))
    | none =>
        ({ st with
            contents := st.contents.map fun c =>
              if c.id == id then
                { c with title := title, description := description, category := category }
              else c },
          .ok (st.contents.countP fun c => c.id == id))
  else (st, .error .checkViolation)

/-- `deleteContentById`: `DELETE FROM contents WHERE id = ?`, returning
`.changes`.  With `PRAGMA foreign_keys = ON`, the `ON DELETE CASCADE`
clauses of `likes` and `favorites` delete every row whose `content_id`
references a deleted content row. -/
def deleteContentById (st : Store) (id : Nat) : Store × Nat :=
  let removed := st.contents.filter fun c => c.id == id
  ({ st with
      contents := st.contents.filter fun c => !(c.id == id),
      likes := st.likes.filter fun l =>
        !(removed.any fun c => c.id == l.content_id),
      favorites := st.favorites.filter fun f =>
        !(removed.any fun c => c.id == f.content_id) },
    removed.length)

/-! ### Likes and favorites -/

/-- `getLikeCount`: `SELECT COUNT(*) FROM likes WHERE content_id = ?`. -/
def getLikeCount (st : Store) (contentId : Nat) : Nat :=
  st.likes.countP fun l => l.content_id == contentId

/-- `hasUserLiked`: `SELECT 1 FROM likes WHERE user_id = ? AND
content_id = ? LIMIT 1`, as a boolean. -/
def hasUserLiked (st : Store) (userId contentId : Nat) : Bool :=
  st.likes.any fun l => l.user_id == userId && l.content_id == contentId

/-- `toggleLike`: check membership, DELETE if present else INSERT, then
report the new state and the fresh like count. -/
def toggleLike (st : Store) (userId contentId : Nat) : Store × Bool × Nat :=
  let liked := hasUserLiked st userId contentId
  let st' :=
    if liked then
      { st with likes := st.likes.filter fun l =>
          !(l.user_id == userId && l.content_id == contentId) }
    else
      { st with likes := st.likes ++ [⟨userId, contentId, st.now⟩], now := st.now + 1 }
  (st', !liked, getLikeCount st' contentId)

/-- `getUserLikedIds`: the content ids the user has liked (the source wraps
them in a `Set`; the underlying id list is the model). -/
def getUserLikedIds (st : Store) (userId : Nat) : List Nat :=
  (st.likes.filter fun l => l.user_id == userId).map fun l => l.content_id

/-- `isFavorite`: `SELECT 1 FROM favorites WHERE user_id = ? AND
content_id = ? LIMIT 1`, as a boolean. -/
def isFavorite (st : Store) (userId contentId : Nat) : Bool :=
  st.favorites.any fun f => f.user_id == userId && f.content_id == contentId

/-- `toggleFavorite`: same flip as `toggleLike`, no count reported. -/
def toggleFavorite (st : Store) (userId contentId : Nat) : Store × Bool :=
  let fav := isFavorite st userId contentId
  let st' :=
    if fav then
      { st with favorites := st.favorites.filter fun f =>
          !(f.user_id == userId && f.content_id == contentId) }
    else
      { st with favorites := st.favorites ++ [⟨userId, contentId, st.now⟩], now := st.now + 1 }
  (st', !fav)

/-- The row shape of `listFavoritesOfUser`. -/
structure FavItem where
  id : Nat
  title : String
  description : String
  category : String
  imagePath : String
  slug : String
  ownerName : Option String
  createdAt : Nat
  deriving Repr, DecidableEq

/-- `ORDER BY f.created_at DESC` on the favorites rows. -/
def pairCreatedDescLe (a b : PairRow) : Prop := b.created_at ≤ a.created_at

instance : DecidableRel pairCreatedDescLe := fun a b => by
  unfold pairCreatedDescLe; exact inferInstance

/-- `listFavoritesOfUser`: the user's favorites joined (inner join) to their
contents and the owners' names, most recently favorited first. -/
def listFavoritesOfUser (st : Store) (userId : Nat) : List FavItem :=
  ((st.favorites.filter fun f => f.user_id == userId).insertionSort
      pairCreatedDescLe).filterMap fun f =>
    (st.contents.find? fun c => c.id == f.content_id).map fun c =>
      ⟨c.id, c.title, c.description, c.category, c.image_path, c.slug,
        ownerNameOf st c.owner_id, c.created_at⟩

/-! ### Listing, filtering and sorting -/

/-- The row shape of `listAuthors`. -/
structure AuthorItem where
  id : Nat
  name : String
  deriving Repr, DecidableEq

/-- `ORDER BY name COLLATE NOCASE`: ascending by ASCII-case-folded name. -/
def authorNocaseLe (a b : AuthorItem) : Prop :=
  ¬ foldCase b.name < foldCase a.name

instance : DecidableRel authorNocaseLe := fun a b => by
  unfold authorNocaseLe; exact inferInstance

/-- `listAuthors`: `SELECT id, name FROM users ORDER BY name COLLATE
NOCASE`. -/
def listAuthors (st : Store) : List AuthorItem :=
  (st.users.map fun u => AuthorItem.mk u.id u.name).insertionSort authorNocaseLe

/-- `ORDER BY c.created_at DESC` (no further tie-break) of
`listContents`. -/
def createdDescLe (a b : ContentItem) : Prop := b.createdAt ≤ a.createdAt

instance : DecidableRel createdDescLe := fun a b => by
  unfold createdDescLe; exact inferInstance

/-- `listContents`: every content with owner name and like count, newest
first. -/
def listContents (st : Store) : List ContentItem :=
  (st.contents.map (contentItem st)).insertionSort createdDescLe

/-- `ORDER BY COALESCE(lc.likeCount, 0) DESC, c.created_at DESC, c.id DESC`
of `listContentsFiltered` with `sort = 'likes'`, as a total preorder:
`a` may come before `b`. -/
def likesDescLe (a b : ContentItem) : Prop :=
  b.likeCount < a.likeCount ∨
    (b.likeCount = a.likeCount ∧
      (b.createdAt < a.createdAt ∨
        (b.createdAt = a.createdAt ∧ b.id ≤ a.id)))

instance : DecidableRel likesDescLe := fun a b => by
  unfold likesDescLe; exact inferInstance

instance : IsTotal ContentItem likesDescLe :=
  ⟨by intro a b; unfold likesDescLe; omega⟩

instance : IsTrans ContentItem likesDescLe :=
  ⟨by intro a b c; unfold likesDescLe; omega⟩

/-- `ORDER BY c.created_at DESC, c.id DESC` of `listContentsFiltered` with
the default sort. -/
def newestDescLe (a b : ContentItem) : Prop :=
  b.createdAt < a.createdAt ∨ (b.createdAt = a.createdAt ∧ b.id ≤ a.id)

instance : DecidableRel newestDescLe := fun a b => by
  unfold newestDescLe; exact inferInstance

/-- The dynamically assembled `WHERE` clause of `listContentsFiltered`:
`category` and `ownerId` constrain a row only when JS-truthy (`category`
non-null and non-empty, `ownerId` non-null and non-zero). -/
def filteredWhere (category : Option String) (ownerId : Option Nat)
    (c : ContentRow) : Bool :=
  (match category with
    | none => true
    | some cat => if cat = "" then true else c.category == cat)
  && (match ownerId with
    | none => true
    | some o => if o = 0 then true else c.owner_id == o)

/-- `listContentsFiltered({category, ownerId, sort})`: filtered rows with
owner names and grouped like counts, ordered by likes (count, then creation
time, then id, all descending) when `sort === 'likes'`, else newest first
(creation time, then id, descending). -/
def listContentsFiltered (st : Store) (category : Option String)
    (ownerId : Option Nat) (sort : String) : List ContentItem :=
  let rows := (st.contents.filter (filteredWhere category ownerId)).map
    (contentItem st)
  if sort = "likes" then rows.insertionSort likesDescLe
  else rows.insertionSort newestDescLe

/-! ### Fallback mode (`better-sqlite3` not installed, `db` null)

Every exported function starts with `if (!db) return X`; the `X` of each
function is recorded below. -/

/-- The static `fallbackUsers` list at the top of `db/index.js`. -/
structure FallbackUser where
  id : Nat
  name : String
  role : String
  createdAt : String
  deriving Repr, DecidableEq

/-- `fallbackUsers` (the `Date` values are kept as their source text). -/
def fallbackUsers : List FallbackUser :=
  [⟨1, "DB", "admin", "2024-11-02"⟩,
   ⟨2, "Fallback", "user", "2025-01-15"⟩,
   ⟨3, "Data", "editor", "2025-07-01"⟩]

/-- The shape of `getAllUsers`' fallback rows: `{...u, email: null}`. -/
structure FallbackUserItem where
  id : Nat
  name : String
  role : String
  createdAt : String
  email : Option String
  deriving Repr, DecidableEq

/-- `getAllUsers` without a database:
`fallbackUsers.map(u => ({...u, email: null}))`. -/
def getAllUsersNoDb : List FallbackUserItem :=
  fallbackUsers.map fun u => ⟨u.id, u.name, u.role, u.createdAt, none⟩

/-- `insertUser` without a database: `null`. -/
def insertUserNoDb : Option Nat := none

/-- `getUserByEmail` without a database: `null`. -/
def getUserByEmailNoDb : Option UserRow := none

/-- `createUser` without a database: `null`. -/
def createUserNoDb : Option Nat := none

/-- `listContents` without a database: `[]`. -/
def listContentsNoDb : List ContentItem := []

/-- `insertContent` without a database: `null`. -/
def insertContentNoDb : Option Nat := none

/-- `getContentBySlug` without a database: `null`. -/
def getContentBySlugNoDb : Option ContentDetail := none

/-- `getContentById` without a database: `null`. -/
def getContentByIdNoDb : Option ContentDetail := none

/-- `updateContent` without a database: `0`. -/
def updateContentNoDb : Nat := 0

/-- `deleteContentById` without a database: `0`. -/
def deleteContentByIdNoDb : Nat := 0

/-- `getLikeCount` without a database: `0`. -/
def getLikeCountNoDb : Nat := 0

/-- `hasUserLiked` without a database: `false`. -/
def hasUserLikedNoDb : Bool := false

/-- `toggleLike` without a database: `{ liked: false, count: 0 }`. -/
def toggleLikeNoDb : Bool × Nat := (false, 0)

/-- `getUserLikedIds` without a database: `new Set()`. -/
def getUserLikedIdsNoDb : List Nat := []

/-- `isFavorite` without a database: `false`. -/
def isFavoriteNoDb : Bool := false

/-- `toggleFavorite` without a database: `{ favorite: false }`. -/
def toggleFavoriteNoDb : Bool := false

/-- `listFavoritesOfUser` without a database: `[]`. -/
def listFavoritesOfUserNoDb : List FavItem := []

/-- `listAuthors` without a database: `[]`. -/
def listAuthorsNoDb : List AuthorItem := []

/-- `listContentsFiltered` without a database: `[]`. -/
def listContentsFilteredNoDb : List ContentItem := []

/-! ### Schema invariants and projections

Predicates recording what the migration DDL guarantees about every database
state ever visible to the store functions; theorems that depend on a
constraint take the corresponding invariant as a hypothesis. -/

/-- The stored slug column of `contents`. -/
def contentSlugs (st : Store) : List String := st.contents.map fun c => c.slug

/-- `PRIMARY KEY (user_id, content_id)` of `likes`: no two rows share the
same pair. -/
def LikesPKUnique (st : Store) : Prop :=
  (st.likes.map fun l => (l.user_id, l.content_id)).Nodup

/-- `FOREIGN KEY(content_id) REFERENCES contents(id)` of `likes`. -/
def LikesFKContents (st : Store) : Prop :=
  ∀ l ∈ st.likes, ∃ c ∈ st.contents, c.id = l.content_id

/-- `FOREIGN KEY(content_id) REFERENCES contents(id)` of `favorites`. -/
def FavoritesFKContents (st : Store) : Prop :=
  ∀ f ∈ st.favorites, ∃ c ∈ st.contents, c.id = f.content_id

/-- The invariant maintained by the unique index `idx_users_email_nocase ON
users(email COLLATE NOCASE)`: two distinct user rows never carry emails that
agree up to ASCII case. -/
def EmailsNocaseUnique (st : Store) : Prop :=
  st.users.Pairwise fun a b => ∀ ea eb, a.email = some ea → b.email = some eb →
    foldCase ea ≠ foldCase eb

/-! ## Proofs -/

lemma noDD_cons_iff (a : Char) (l : List Char) :
    noDD (a :: l) = true ↔ noDD l = true ∧ ¬(a = '-' ∧ l.head? = some '-') := by
  cases l with
  | nil => simp [noDD]
  | cons b t => simp [noDD]; tauto

lemma noDD_tail {a : Char} {l : List Char} (h : noDD (a :: l) = true) :
    noDD l = true :=
  ((noDD_cons_iff a l).mp h).1

lemma isSlugAlnum_iff (c : Char) :
    isSlugAlnum c = true ↔
      (97 ≤ c.toNat ∧ c.toNat ≤ 122) ∨ (48 ≤ c.toNat ∧ c.toNat ≤ 57) := by
  simp [isSlugAlnum]

lemma dash_toNat : ('-' : Char).toNat = 45 := rfl

lemma alnum_ne_dash {c : Char} (h : isSlugAlnum c = true) : c ≠ '-' := by
  intro he
  rw [isSlugAlnum_iff] at h
  rw [he, dash_toNat] at h
  omega

lemma goodChar_cases {c : Char} (h : goodChar c = true) :
    isSlugAlnum c = true ∨ c = '-' := by
  simpa [goodChar] using h

lemma goodChar_toNat_le {c : Char} (h : goodChar c = true) : c.toNat ≤ 122 := by
  rcases goodChar_cases h with h1 | h1
  · rw [isSlugAlnum_iff] at h1; omega
  · rw [h1, dash_toNat]; omega

lemma goodChar_toNat_ne {c : Char} (h : goodChar c = true) (n : Nat)
    (h45 : n ≠ 45) (hlo : n < 48 ∨ 57 < n) (hlo2 : n < 97 ∨ 122 < n) :
    c.toNat ≠ n := by
  rcases goodChar_cases h with h1 | h1
  · rw [isSlugAlnum_iff] at h1; omega
  · rw [h1, dash_toNat]; omega

lemma flatMap_eq_self {α : Type} (f : α → List α) (l : List α)
    (h : ∀ a ∈ l, f a = [a]) : l.flatMap f = l := by
  induction l with
  | nil => rfl
  | cons a t ih =>
    simp only [List.flatMap_cons, h a (by simp)]
    simp [ih fun x hx => h x (by simp [hx])]

lemma map_eq_self {α : Type} (f : α → α) (l : List α)
    (h : ∀ a ∈ l, f a = a) : l.map f = l := by
  induction l with
  | nil => rfl
  | cons a t ih =>
    simp only [List.map_cons, h a (by simp)]
    simp [ih fun x hx => h x (by simp [hx])]

lemma nfkdChar_ascii {c : Char} (h : c.toNat < 0x80) : nfkdChar c = [c] := by
  unfold nfkdChar
  rw [if_pos h]

lemma toLower_eq_self {c : Char} (h : ¬(65 ≤ c.toNat ∧ c.toNat ≤ 90)) :
    c.toLower = c := by
  simp only [Char.toLower, ge_iff_le]
  rw [if_neg h]

/-- `dashRuns` is the identity on lists of slug characters with no adjacent
hyphens. -/
lemma dashRunsAux_id : ∀ l : List Char, (∀ c ∈ l, goodChar c = true) →
    noDD l = true → dashRunsAux false l = l := by
  intro l
  induction l with
  | nil => intro _ _; rfl
  | cons c cs ih =>
    intro hg hnd
    have hg0 : goodChar c = true := hg c (by simp)
    have hgcs : ∀ x ∈ cs, goodChar x = true := fun x hx => hg x (by simp [hx])
    have ihcs := ih hgcs (noDD_tail hnd)
    by_cases ha : isSlugAlnum c = true
    · simp [dashRunsAux, ha, ihcs]
    · have hc : c = '-' := (goodChar_cases hg0).resolve_left ha
      subst hc
      have htail : dashRunsAux true cs = cs := by
        cases cs with
        | nil => rfl
        | cons d ds =>
          have hd : d ≠ '-' := by
            intro he
            have h2 := ((noDD_cons_iff _ _).mp hnd).2
            exact h2 ⟨rfl, by simp [he]⟩
          have hda : isSlugAlnum d = true := by
            rcases goodChar_cases (hgcs d (by simp)) with h1 | h1
            · exact h1
            · exact absurd h1 hd
          have hds : dashRunsAux false ds = ds := by
            have h2 := ihcs
            simp [dashRunsAux, hda] at h2
            exact h2
          simp [dashRunsAux, hda, hds]
      simp [dashRunsAux, ha, htail]

/-- All characters produced by `dashRuns` are slug characters. -/
lemma dashRunsAux_good : ∀ (l : List Char) (b : Bool),
    ∀ c ∈ dashRunsAux b l, goodChar c = true := by
  intro l
  induction l with
  | nil => intro b c hc; simp [dashRunsAux] at hc
  | cons a t ih =>
    intro b c hc
    by_cases ha : isSlugAlnum a = true
    · simp only [dashRunsAux, ha, if_true] at hc
      rcases List.mem_cons.mp hc with rfl | hc
      · simp [goodChar, ha]
      · exact ih false c hc
    · cases b with
      | true =>
        simp only [dashRunsAux, ha, if_false, if_true] at hc
        exact ih true c hc
      | false =>
        simp [dashRunsAux, ha] at hc
        rcases hc with rfl | hc
        · simp [goodChar]
        · exact ih true c hc

/-- `dashRuns` output has no adjacent hyphens, and in run-mode it never
begins with a hyphen. -/
lemma dashRunsAux_noDD : ∀ l : List Char,
    noDD (dashRunsAux true l) = true ∧ noDD (dashRunsAux false l) = true ∧
      (dashRunsAux true l).head? ≠ some '-' := by
  intro l
  induction l with
  | nil => exact ⟨rfl, rfl, by simp [dashRunsAux]⟩
  | cons c cs ih =>
    obtain ⟨ihT, ihF, ihH⟩ := ih
    by_cases ha : isSlugAlnum c = true
    · have hcd : c ≠ '-' := alnum_ne_dash ha
      have hn : noDD (c :: dashRunsAux false cs) = true := by
        rw [noDD_cons_iff]
        exact ⟨ihF, fun h => hcd h.1⟩
      refine ⟨?_, ?_, ?_⟩ <;> simp [dashRunsAux, ha, hn, hcd]
    · have hfalse : noDD ('-' :: dashRunsAux true cs) = true := by
        rw [noDD_cons_iff]
        exact ⟨ihT, fun h => ihH h.2⟩
      refine ⟨?_, ?_, ?_⟩ <;> simp [dashRunsAux, ha, ihT, ihH, hfalse]

lemma noDD_dropWhile (p : Char → Bool) :
    ∀ l : List Char, noDD l = true → noDD (l.dropWhile p) = true := by
  intro l
  induction l with
  | nil => intro h; exact h
  | cons a t ih =>
    intro h
    rw [List.dropWhile_cons]
    by_cases hp : p a = true
    · simp only [hp, if_true]
      exact ih (noDD_tail h)
    · simp only [hp, if_false]
      exact h

lemma noDD_iff_chain (l : List Char) :
    noDD l = true ↔ l.Chain' fun a b => ¬(a = '-' ∧ b = '-') := by
  induction l with
  | nil => simp [noDD]
  | cons a t ih =>
    cases t with
    | nil => simp [noDD]
    | cons b t2 =>
      rw [List.chain'_cons, noDD_cons_iff, ← ih]
      simp only [List.head?_cons]
      constructor
      · rintro ⟨h1, h2⟩
        exact ⟨fun hc => h2 ⟨hc.1, by simp [hc.2]⟩, h1⟩
      · rintro ⟨h1, h2⟩
        refine ⟨h2, fun hc => h1 ⟨hc.1, by simpa using hc.2⟩⟩

lemma noDD_reverse {l : List Char} (h : noDD l = true) :
    noDD l.reverse = true := by
  rw [noDD_iff_chain] at h ⊢
  rw [List.chain'_reverse]
  exact h.imp fun a b hab h2 => hab ⟨h2.2, h2.1⟩

/-- `collapseDashes` is the identity on lists with no adjacent hyphens. -/
lemma collapseAux_id : ∀ l : List Char, noDD l = true →
    collapseAux false l = l := by
  intro l
  induction l with
  | nil => intro _; rfl
  | cons c cs ih =>
    intro hnd
    have ihcs := ih (noDD_tail hnd)
    by_cases hc : c = '-'
    · subst hc
      simp only [collapseAux, beq_self_eq_true, if_true]
      cases cs with
      | nil => rfl
      | cons d ds =>
        have hd : d ≠ '-' := by
          intro he
          exact ((noDD_cons_iff _ _).mp hnd).2 ⟨rfl, by simp [he]⟩
        have hds : collapseAux false ds = ds := by
          have := ihcs
          simp [collapseAux, hd] at this
          exact this
        simp [collapseAux, hd, hds]
    · simp [collapseAux, hc, ihcs]

lemma head?_dropWhile_dash (l : List Char) (x : Char)
    (h : (l.dropWhile fun c => c == '-').head? = some x) : x ≠ '-' := by
  have hh := List.head?_dropWhile_not (fun c => c == '-') l
  rw [h] at hh
  simpa using hh

lemma getLast?_of_suffix {α : Type} {t l : List α} (h : t <:+ l) (hne : t ≠ []) :
    t.getLast? = l.getLast? := by
  obtain ⟨u, rfl⟩ := h
  rw [List.getLast?_append]
  cases ht : t.getLast? with
  | none => exact absurd (List.getLast?_eq_none_iff.mp ht) hne
  | some x => rfl

lemma mem_trimDashes {c : Char} {l : List Char} (h : c ∈ trimDashes l) :
    c ∈ l := by
  unfold trimDashes at h
  rw [List.mem_reverse] at h
  have h1 := (List.dropWhile_sublist (fun c => c == '-')).subset h
  rw [List.mem_reverse] at h1
  exact (List.dropWhile_sublist (fun c => c == '-')).subset h1

lemma noDD_trimDashes {l : List Char} (h : noDD l = true) :
    noDD (trimDashes l) = true := by
  unfold trimDashes
  exact noDD_reverse (noDD_dropWhile _ _ (noDD_reverse (noDD_dropWhile _ _ h)))

lemma trimDashes_edges (l : List Char) :
    (trimDashes l).head? ≠ some '-' ∧ (trimDashes l).getLast? ≠ some '-' := by
  unfold trimDashes
  constructor
  · rw [List.head?_reverse]
    by_cases hne :
        ((l.dropWhile fun c => c == '-').reverse.dropWhile fun c => c == '-') = []
    · simp [hne]
    · rw [getLast?_of_suffix (List.dropWhile_suffix _) hne, List.getLast?_reverse]
      exact fun hcontra => head?_dropWhile_dash l '-' hcontra rfl
  · rw [List.getLast?_reverse]
    exact fun hcontra => head?_dropWhile_dash _ '-' hcontra rfl

/-- The output of the `slugify` pipeline is a canonical slug. -/
lemma canon_slugifyCore (s : List Char) : Canon (slugifyCore s) := by
  unfold slugifyCore collapseDashes dashRuns
  have hgood := dashRunsAux_good
    (replaceAmp (((s.flatMap nfkdChar).filter fun c => !isCombining c).map Char.toLower)) false
  have hnd := (dashRunsAux_noDD
    (replaceAmp (((s.flatMap nfkdChar).filter fun c => !isCombining c).map Char.toLower))).2.1
  have hndT := noDD_trimDashes hnd
  rw [collapseAux_id _ hndT]
  exact ⟨fun c hc => hgood c (mem_trimDashes hc), hndT,
    (trimDashes_edges _).1, (trimDashes_edges _).2⟩

lemma dropWhile_dash_id {l : List Char} (h : l.head? ≠ some '-') :
    (l.dropWhile fun c => c == '-') = l := by
  cases l with
  | nil => rfl
  | cons a t =>
    rw [List.dropWhile_cons, if_neg]
    simp only [List.head?_cons, ne_eq, Option.some.injEq] at h
    simpa using h

lemma trimDashes_id {l : List Char} (hh : l.head? ≠ some '-')
    (hl : l.getLast? ≠ some '-') : trimDashes l = l := by
  unfold trimDashes
  rw [dropWhile_dash_id hh, dropWhile_dash_id (by rw [List.head?_reverse]; exact hl)]
  exact List.reverse_reverse l

/-- The `slugify` pipeline is the identity on canonical slugs. -/
lemma slugifyCore_id {l : List Char} (h : Canon l) : slugifyCore l = l := by
  obtain ⟨hg, hnd, hh, hl⟩ := h
  unfold slugifyCore
  have h1 : l.flatMap nfkdChar = l :=
    flatMap_eq_self _ _ fun c hc =>
      nfkdChar_ascii (by have := goodChar_toNat_le (hg c hc); omega)
  rw [h1]
  have h2 : (l.filter fun c => !isCombining c) = l :=
    List.filter_eq_self.mpr fun c hc => by
      have := goodChar_toNat_le (hg c hc)
      simp only [isCombining, Bool.not_eq_true']
      simp only [Bool.and_eq_false_iff, decide_eq_false_iff_not]
      omega
  rw [h2]
  have h3 : l.map Char.toLower = l := map_eq_self _ _ fun c hc => by
    rcases goodChar_cases (hg c hc) with h4 | h4
    · rw [isSlugAlnum_iff] at h4
      exact toLower_eq_self (by omega)
    · subst h4; rfl
  rw [h3]
  have h4 : replaceAmp l = l := by
    unfold replaceAmp
    refine flatMap_eq_self _ _ fun c hc => ?_
    rw [if_neg]
    intro he
    exact goodChar_toNat_ne (hg c hc) 38 (by omega) (by omega) (by omega)
      (by rw [he]; rfl)
  rw [h4]
  rw [show dashRuns l = l from dashRunsAux_id l hg hnd]
  rw [trimDashes_id hh hl]
  exact collapseAux_id l hnd

/-- **C8.** The slug normalization function is idempotent: for every input
string `s`, `slugify (slugify s) = slugify s`; in particular, applying it to
an already-normalized slug returns that slug unchanged. -/
theorem slugify_idempotent (s : String) : slugify (slugify s) = slugify s := by
  by_cases hs : s = ""
  · subst hs; rfl
  · have h1 : slugify s = String.mk (slugifyCore s.data) := by
      rw [slugify, if_neg hs]
    rw [h1]
    by_cases hnil : slugifyCore s.data = []
    · rw [hnil]
      rfl
    · have hne : String.mk (slugifyCore s.data) ≠ "" := by
        intro hcontra
        exact hnil (congrArg String.data hcontra)
      rw [slugify, if_neg hne]
      exact congrArg String.mk (slugifyCore_id (canon_slugifyCore s.data))

/-! ### Slug uniqueness (C1) -/

lemma slugTaken_false_iff (st : Store) (s : String) :
    slugTaken st s = false ↔ s ∉ contentSlugs st := by
  unfold slugTaken contentSlugs
  rw [List.any_eq_false]
  constructor
  · intro h hmem
    rw [List.mem_map] at hmem
    obtain ⟨c, hc, he⟩ := hmem
    exact (by simpa using h c hc : c.slug ≠ s) he
  · intro h c hc hbe
    exact h (List.mem_map.mpr ⟨c, hc, by simpa using hbe⟩)

lemma append_dash2_ne (b : String) : b ≠ b ++ "-2" := by
  intro h
  have h2 := congrArg String.length h
  rw [String.length_append] at h2
  have h3 : ("-2" : String).length = 2 := rfl
  rw [h3] at h2
  omega

/-- **C1.** For two content creations whose titles have the same slugified
form, performed in sequence via `insertContent` from a state in which
neither the effective base slug `b` nor `b ++ "-2"` is stored: the inserted
slugs are `b` and then `b ++ "-2"`, they are distinct, and each is absent
from the stored slug column before its own insert. -/
theorem insertContent_unique_slugs
    (st : Store) (T1 T2 d1 d2 c1 c2 i1 i2 : String) (o1 o2 : Nat) (b : String)
    (hT : slugify T1 = slugify T2)
    (hb : b = if slugify T1 = "" then "eintrag" else slugify T1)
    (hc1 : c1 ∈ CATEGORIES) (hc2 : c2 ∈ CATEGORIES)
    (h0 : slugTaken st b = false)
    (h2 : slugTaken st (b ++ "-2") = false) :
    contentSlugs (insertContent st T1 d1 c1 i1 o1).1 = contentSlugs st ++ [b] ∧
    contentSlugs (insertContent (insertContent st T1 d1 c1 i1 o1).1
        T2 d2 c2 i2 o2).1 = contentSlugs st ++ [b, b ++ "-2"] ∧
    b ≠ b ++ "-2" ∧
    b ∉ contentSlugs st ∧
    (b ++ "-2") ∉ contentSlugs (insertContent st T1 d1 c1 i1 o1).1 := by
  have hbne : b ≠ b ++ "-2" := append_dash2_ne b
  have hins : ∀ (s : Store) (t d c i : String) (o : Nat), c ∈ CATEGORIES →
      insertContent s t d c i o
        = ({ s with
            contents := s.contents ++
              [⟨s.nextContentId, t, d, c, i, o, s.now,
                makeUniqueContentSlug s (slugify t)⟩],
            nextContentId := s.nextContentId + 1, now := s.now + 1 },
          Except.ok s.nextContentId) := by
    intro s t d c i o hc
    unfold insertContent
    rw [if_pos hc]
  have hmk1 : makeUniqueContentSlug st (slugify T1) = b := by
    unfold makeUniqueContentSlug
    rw [← hb]
    simp [h0]
  have hst1 : (insertContent st T1 d1 c1 i1 o1).1
      = { st with
          contents := st.contents ++
            [⟨st.nextContentId, T1, d1, c1, i1, o1, st.now, b⟩],
          nextContentId := st.nextContentId + 1, now := st.now + 1 } := by
    rw [hins st T1 d1 c1 i1 o1 hc1, hmk1]
  have hs1 : contentSlugs (insertContent st T1 d1 c1 i1 o1).1
      = contentSlugs st ++ [b] := by
    rw [hst1]
    simp [contentSlugs]
  have htaken1 : slugTaken (insertContent st T1 d1 c1 i1 o1).1 b = true := by
    rw [hst1]
    simp [slugTaken]
  have htaken2 : slugTaken (insertContent st T1 d1 c1 i1 o1).1 (b ++ "-2")
      = false := by
    rw [hst1]
    simp only [slugTaken, List.any_append]
    rw [slugTaken] at h2
    simp [h2, hbne]
  have hprobe : b ++ "-" ++ toString 2 = b ++ "-2" := by
    rw [String.append_assoc]
    rfl
  have hlen : (insertContent st T1 d1 c1 i1 o1).1.contents.length
      = st.contents.length + 1 := by
    rw [hst1]
    simp
  have hmk2 : makeUniqueContentSlug (insertContent st T1 d1 c1 i1 o1).1
      (slugify T2) = b ++ "-2" := by
    unfold makeUniqueContentSlug
    rw [← hT, ← hb]
    simp only [htaken1, if_true, hlen, findFreeSlug, hprobe, htaken2,
      Bool.false_eq_true, if_false]
  have hst2 : (insertContent (insertContent st T1 d1 c1 i1 o1).1
        T2 d2 c2 i2 o2).1
      = { (insertContent st T1 d1 c1 i1 o1).1 with
          contents := (insertContent st T1 d1 c1 i1 o1).1.contents ++
            [⟨(insertContent st T1 d1 c1 i1 o1).1.nextContentId, T2, d2, c2,
              i2, o2, (insertContent st T1 d1 c1 i1 o1).1.now, b ++ "-2"⟩],
          nextContentId := (insertContent st T1 d1 c1 i1 o1).1.nextContentId + 1,
          now := (insertContent st T1 d1 c1 i1 o1).1.now + 1 } := by
    rw [hins _ T2 d2 c2 i2 o2 hc2, hmk2]
  refine ⟨hs1, ?_, hbne, ?_, ?_⟩
  · rw [hst2]
    simp only [contentSlugs, List.map_append, List.map_cons, List.map_nil]
    rw [show ((insertContent st T1 d1 c1 i1 o1).1.contents.map fun c => c.slug)
        = contentSlugs (insertContent st T1 d1 c1 i1 o1).1 from rfl, hs1]
    simp [contentSlugs]
  · exact (slugTaken_false_iff st b).mp h0
  · exact (slugTaken_false_iff _ _).mp htaken2

/-- **C1 witness.** The hypotheses and the conclusion of
`insertContent_unique_slugs` at a concrete input: two creations titled
`"Movie Night"` and `"movie night"` on an empty store. -/
theorem insertContent_unique_slugs_witness :
    slugify "Movie Night" = slugify "movie night" ∧
    "movie-night" =
      (if slugify "Movie Night" = "" then "eintrag" else slugify "Movie Night") ∧
    "sifi" ∈ CATEGORIES ∧ "krimi" ∈ CATEGORIES ∧
    slugTaken ⟨[], [], [], [], 1, 1, 0⟩ "movie-night" = false ∧
    slugTaken ⟨[], [], [], [], 1, 1, 0⟩ ("movie-night" ++ "-2") = false ∧
    (contentSlugs (insertContent ⟨[], [], [], [], 1, 1, 0⟩
          "Movie Night" "d1" "sifi" "i1" 7).1
        = contentSlugs ⟨[], [], [], [], 1, 1, 0⟩ ++ ["movie-night"] ∧
      contentSlugs (insertContent (insertContent ⟨[], [], [], [], 1, 1, 0⟩
            "Movie Night" "d1" "sifi" "i1" 7).1 "movie night" "d2" "krimi" "i2" 8).1
        = contentSlugs ⟨[], [], [], [], 1, 1, 0⟩ ++
            ["movie-night", "movie-night" ++ "-2"] ∧
      "movie-night" ≠ "movie-night" ++ "-2" ∧
      "movie-night" ∉ contentSlugs ⟨[], [], [], [], 1, 1, 0⟩ ∧
      ("movie-night" ++ "-2") ∉ contentSlugs (insertContent
          ⟨[], [], [], [], 1, 1, 0⟩ "Movie Night" "d1" "sifi" "i1" 7).1) :=
  ⟨by decide, by decide, by decide, by decide, by decide, by decide,
    insertContent_unique_slugs ⟨[], [], [], [], 1, 1, 0⟩ "Movie Night"
      "movie night" "d1" "d2" "sifi" "krimi" "i1" "i2" 7 8 "movie-night"
      (by decide) (by decide) (by decide) (by decide) (by decide) (by decide)⟩

/-! ### Toggling likes (C2) -/

lemma countP_split {α : Type} (l : List α) (p q : α → Bool) :
    l.countP p
      = l.countP (fun a => p a && q a) + l.countP (fun a => p a && !q a) := by
  induction l with
  | nil => rfl
  | cons a t ih =>
    rw [List.countP_cons, List.countP_cons, List.countP_cons]
    by_cases hp : p a = true <;> by_cases hq : q a = true <;>
      simp [hp, hq, ih] <;> omega

lemma countP_pair_eq_one (l : List PairRow) (u c : Nat)
    (hnd : (l.map fun x => (x.user_id, x.content_id)).Nodup)
    (hex : l.any (fun x => x.user_id == u && x.content_id == c) = true) :
    l.countP (fun x => x.user_id == u && x.content_id == c) = 1 := by
  induction l with
  | nil => simp at hex
  | cons a t ih =>
    rw [List.map_cons, List.nodup_cons] at hnd
    obtain ⟨hmem, hnd2⟩ := hnd
    rw [List.countP_cons]
    by_cases hpa : (a.user_id == u && a.content_id == c) = true
    · have h0 : t.countP (fun x => x.user_id == u && x.content_id == c) = 0 := by
        rw [List.countP_eq_zero]
        intro x hx hxp
        apply hmem
        rw [List.mem_map]
        refine ⟨x, hx, ?_⟩
        have h1 : x.user_id = u ∧ x.content_id = c := by simpa using hxp
        have h2 : a.user_id = u ∧ a.content_id = c := by simpa using hpa
        rw [h1.1, h1.2, h2.1, h2.2]
      rw [h0]
      simp [hpa]
    · simp only [List.any_cons, hpa, Bool.false_or] at hex
      rw [ih hnd2 hex]
      simp [hpa]

/-- **C2.** For every `(userId, contentId)` pair and every store state
satisfying the `likes` primary-key invariant, toggling the like twice
restores both the like membership of the pair and the like count of the
content to their original values. -/
theorem toggleLike_twice (st : Store) (u c : Nat) (hpk : LikesPKUnique st) :
    hasUserLiked (toggleLike (toggleLike st u c).1 u c).1 u c
      = hasUserLiked st u c ∧
    getLikeCount (toggleLike (toggleLike st u c).1 u c).1 c
      = getLikeCount st c := by
  unfold LikesPKUnique at hpk
  have htogT : ∀ s : Store, hasUserLiked s u c = true →
      (toggleLike s u c).1 = { s with likes := s.likes.filter fun l =>
          !(l.user_id == u && l.content_id == c) } := by
    intro s hs
    unfold toggleLike
    simp [hs]
  have htogF : ∀ s : Store, hasUserLiked s u c = false →
      (toggleLike s u c).1
        = { s with likes := s.likes ++ [⟨u, c, s.now⟩], now := s.now + 1 } := by
    intro s hs
    unfold toggleLike
    simp [hs]
  cases h : hasUserLiked st u c with
  | false =>
    have hany : st.likes.any (fun l => l.user_id == u && l.content_id == c)
        = false := h
    have hst1 := htogF st h
    have h1 : hasUserLiked (toggleLike st u c).1 u c = true := by
      rw [hst1]
      simp [hasUserLiked]
    have hst2 := htogT _ h1
    rw [hst2, hst1]
    have hfilter : ((st.likes ++ [(⟨u, c, st.now⟩ : PairRow)]).filter fun l =>
        !(l.user_id == u && l.content_id == c)) = st.likes := by
      rw [List.filter_append]
      have hl2 : (st.likes.filter fun l =>
          !(l.user_id == u && l.content_id == c)) = st.likes :=
        List.filter_eq_self.mpr fun l hl => by
          have h3 := List.any_eq_false.mp hany l hl
          simp at h3 ⊢
          tauto
      have hr : (([(⟨u, c, st.now⟩ : PairRow)]).filter fun l =>
          !(l.user_id == u && l.content_id == c)) = [] := by simp
      rw [hl2, hr, List.append_nil]
    constructor
    · simp only [hasUserLiked]
      rw [hfilter]
      exact hany
    · simp only [getLikeCount]
      rw [hfilter]
  | true =>
    have hany : st.likes.any (fun l => l.user_id == u && l.content_id == c)
        = true := h
    have hst1 := htogT st h
    have h1 : hasUserLiked (toggleLike st u c).1 u c = false := by
      rw [hst1]
      simp only [hasUserLiked]
      rw [List.any_eq_false]
      intro x hx
      have hx2 : x ∈ st.likes.filter
          (fun l => !(l.user_id == u && l.content_id == c)) := hx
      rw [List.mem_filter] at hx2
      have h4 := hx2.2
      simp at h4 ⊢
      tauto
    have hst2 := htogF _ h1
    rw [hst2, hst1]
    constructor
    · simp [hasUserLiked, h]
    · simp only [getLikeCount, List.countP_append]
      have hcr : ∀ x : Nat, List.countP (fun l => l.content_id == c)
          [(⟨u, c, x⟩ : PairRow)] = 1 := by intro x; simp
      have hcf : (st.likes.filter fun l =>
            !(l.user_id == u && l.content_id == c)).countP
              (fun l => l.content_id == c)
          = st.likes.countP fun l =>
              (l.content_id == c) && !(l.user_id == u && l.content_id == c) :=
        List.countP_filter _ _ _
      have hsplit := countP_split st.likes (fun l => l.content_id == c)
        (fun l => l.user_id == u && l.content_id == c)
      have hone : st.likes.countP
          (fun l => (l.content_id == c) && (l.user_id == u && l.content_id == c))
          = 1 := by
        rw [List.countP_congr fun x hx => ?_]
        · exact countP_pair_eq_one st.likes u c hpk hany
        · cases h1 : x.user_id == u <;> cases h2 : x.content_id == c <;>
            simp [h1, h2]
      rw [hcf, hcr _]
      omega

/-- **C2 witness.** `toggleLike_twice` at a concrete store: one like row
`(5, 9)`, toggled twice. -/
theorem toggleLike_twice_witness :
    LikesPKUnique ⟨[], [], [⟨5, 9, 0⟩], [], 1, 1, 1⟩ ∧
    (hasUserLiked (toggleLike (toggleLike ⟨[], [], [⟨5, 9, 0⟩], [], 1, 1, 1⟩
          5 9).1 5 9).1 5 9
        = hasUserLiked ⟨[], [], [⟨5, 9, 0⟩], [], 1, 1, 1⟩ 5 9 ∧
      getLikeCount (toggleLike (toggleLike ⟨[], [], [⟨5, 9, 0⟩], [], 1, 1, 1⟩
          5 9).1 5 9).1 9
        = getLikeCount ⟨[], [], [⟨5, 9, 0⟩], [], 1, 1, 1⟩ 9) :=
  ⟨by unfold LikesPKUnique; decide,
    toggleLike_twice ⟨[], [], [⟨5, 9, 0⟩], [], 1, 1, 1⟩ 5 9
      (by unfold LikesPKUnique; decide)⟩

/-! ### Cascade delete (C3) -/

lemma no_pair_ref_after_cascade (contents : List ContentRow)
    (pairs : List PairRow) (cid : Nat)
    (hfk : ∀ p ∈ pairs, ∃ c ∈ contents, c.id = p.content_id) :
    ∀ p ∈ pairs.filter fun p2 =>
        !((contents.filter fun c => c.id == cid).any fun c =>
          c.id == p2.content_id),
      (p.content_id == cid) = false := by
  intro p hp
  rw [List.mem_filter] at hp
  obtain ⟨hmem, hflt⟩ := hp
  by_contra hbe
  have hcid : p.content_id = cid := by
    cases hb : (p.content_id == cid)
    · exact absurd hb hbe
    · exact (beq_iff_eq.mp hb :)
  obtain ⟨c0, hc0, hc0id⟩ := hfk p hmem
  have hc0r : c0 ∈ contents.filter fun c => c.id == cid := by
    rw [List.mem_filter]
    exact ⟨hc0, by simp [hc0id, hcid]⟩
  have hany : ((contents.filter fun c => c.id == cid).any fun c =>
      c.id == p.content_id) = true :=
    List.any_eq_true.mpr ⟨c0, hc0r, by simp [hc0id]⟩
  simp [hany] at hflt

/-- **C3.** Deleting a content removes every `likes` and `favorites` row
referencing it (the `ON DELETE CASCADE` of both foreign keys): afterwards
the like count of the content is zero, and no user has it liked or
favorited — provided the foreign keys held beforehand. -/
theorem deleteContentById_cascades (st : Store) (cid : Nat)
    (hl : LikesFKContents st) (hf : FavoritesFKContents st) :
    getLikeCount (deleteContentById st cid).1 cid = 0 ∧
    (∀ u, hasUserLiked (deleteContentById st cid).1 u cid = false) ∧
    (∀ u, isFavorite (deleteContentById st cid).1 u cid = false) := by
  have hlike : ∀ l ∈ (deleteContentById st cid).1.likes,
      (l.content_id == cid) = false := by
    intro l hml
    have hml2 : l ∈ st.likes.filter fun p2 =>
        !((st.contents.filter fun c => c.id == cid).any fun c =>
          c.id == p2.content_id) := hml
    exact no_pair_ref_after_cascade st.contents st.likes cid hl l hml2
  have hfav : ∀ f ∈ (deleteContentById st cid).1.favorites,
      (f.content_id == cid) = false := by
    intro f hmf
    have hmf2 : f ∈ st.favorites.filter fun p2 =>
        !((st.contents.filter fun c => c.id == cid).any fun c =>
          c.id == p2.content_id) := hmf
    exact no_pair_ref_after_cascade st.contents st.favorites cid hf f hmf2
  refine ⟨?_, ?_, ?_⟩
  · rw [getLikeCount, List.countP_eq_zero]
    intro l hml
    simp [hlike l hml]
  · intro u
    rw [hasUserLiked, List.any_eq_false]
    intro l hml
    simp [hlike l hml]
  · intro u
    rw [isFavorite, List.any_eq_false]
    intro f hmf
    simp [hfav f hmf]

/-- **C3 witness.** `deleteContentById_cascades` at a concrete store: one
content (id 1) with one like and one favorite row. -/
theorem deleteContentById_cascades_witness :
    LikesFKContents ⟨[], [⟨1, "t", "d", "sifi", "i", 4, 0, "t"⟩],
      [⟨2, 1, 0⟩], [⟨3, 1, 0⟩], 1, 2, 1⟩ ∧
    FavoritesFKContents ⟨[], [⟨1, "t", "d", "sifi", "i", 4, 0, "t"⟩],
      [⟨2, 1, 0⟩], [⟨3, 1, 0⟩], 1, 2, 1⟩ ∧
    (getLikeCount (deleteContentById ⟨[], [⟨1, "t", "d", "sifi", "i", 4, 0, "t"⟩],
        [⟨2, 1, 0⟩], [⟨3, 1, 0⟩], 1, 2, 1⟩ 1).1 1 = 0 ∧
      (∀ u, hasUserLiked (deleteContentById ⟨[], [⟨1, "t", "d", "sifi", "i", 4, 0, "t"⟩],
          [⟨2, 1, 0⟩], [⟨3, 1, 0⟩], 1, 2, 1⟩ 1).1 u 1 = false) ∧
      (∀ u, isFavorite (deleteContentById ⟨[], [⟨1, "t", "d", "sifi", "i", 4, 0, "t"⟩],
          [⟨2, 1, 0⟩], [⟨3, 1, 0⟩], 1, 2, 1⟩ 1).1 u 1 = false)) :=
  ⟨by unfold LikesFKContents; decide, by unfold FavoritesFKContents; decide,
    deleteContentById_cascades _ 1 (by unfold LikesFKContents; decide)
      (by unfold FavoritesFKContents; decide)⟩

/-! ### Partial update of contents (C4, C10) -/

lemma find?_map_of_pred {α : Type} (l : List α) (f : α → α) (q : α → Bool)
    (hf : ∀ a, q (f a) = q a) :
    (l.map f).find? q = (l.find? q).map f := by
  induction l with
  | nil => rfl
  | cons a t ih =>
    rw [List.map_cons]
    by_cases ha : q a = true
    · rw [List.find?_cons_of_pos _ (show q (f a) = true by rw [hf]; exact ha),
        List.find?_cons_of_pos _ ha]
      rfl
    · rw [List.find?_cons_of_neg _ (show ¬q (f a) = true by rw [hf]; exact ha),
        List.find?_cons_of_neg _ ha, ih]

/-- **C4.** Updating an existing content with a supplied (non-empty) image
reference overwrites title, description, category and image reference;
updating without one overwrites title, description and category and leaves
the stored image reference unchanged. -/
theorem updateContent_image_semantics (st : Store) (id : Nat)
    (t d cat : String) (c0 : ContentRow) (hcat : cat ∈ CATEGORIES)
    (h0 : st.contents.find? (fun c => c.id == id) = some c0) :
    (∀ p : String, p ≠ "" →
      (updateContent st id t d cat (some p)).1.contents.find?
          (fun c => c.id == id)
        = some { c0 with title := t, description := d, category := cat, image_path := p }) ∧
    (updateContent st id t d cat none).1.contents.find? (fun c => c.id == id)
      = some { c0 with title := t, description := d, category := cat } := by
  have hid0 := List.find?_some h0
  have hid : (c0.id == id) = true := hid0
  have hideq : c0.id = id := by simpa using hid
  constructor
  · intro p hp
    have hres : (updateContent st id t d cat (some p)).1.contents
        = st.contents.map fun c =>
            if c.id == id then
              { c with title := t, description := d, category := cat, image_path := p }
            else c := by
      unfold updateContent
      rw [if_pos hcat]
      simp [hp]
    rw [hres, find?_map_of_pred _ _ _ (fun c => by
      by_cases h : (c.id == id) = true <;> simp [h]), h0]
    simp [hideq]
  · have hres : (updateContent st id t d cat none).1.contents
        = st.contents.map fun c =>
            if c.id == id then
              { c with title := t, description := d, category := cat }
            else c := by
      unfold updateContent
      rw [if_pos hcat]
    rw [hres, find?_map_of_pred _ _ _ (fun c => by
      by_cases h : (c.id == id) = true <;> simp [h]), h0]
    simp [hideq]

/-- **C4 witness.** `updateContent_image_semantics` at a concrete store with
one content row, updated with image `"/new.png"` and without an image. -/
theorem updateContent_image_semantics_witness :
    "krimi" ∈ CATEGORIES ∧
    (⟨[], [⟨1, "t", "d", "sifi", "/old.png", 4, 0, "t"⟩], [], [], 1, 2, 1⟩ :
        Store).contents.find? (fun c => c.id == 1)
      = some ⟨1, "t", "d", "sifi", "/old.png", 4, 0, "t"⟩ ∧
    ((∀ p : String, p ≠ "" →
      (updateContent ⟨[], [⟨1, "t", "d", "sifi", "/old.png", 4, 0, "t"⟩],
          [], [], 1, 2, 1⟩ 1 "t2" "d2" "krimi" (some p)).1.contents.find?
          (fun c => c.id == 1)
        = some { (⟨1, "t", "d", "sifi", "/old.png", 4, 0, "t"⟩ : ContentRow) with
            title := "t2", description := "d2", category := "krimi", image_path := p }) ∧
    (updateContent ⟨[], [⟨1, "t", "d", "sifi", "/old.png", 4, 0, "t"⟩],
        [], [], 1, 2, 1⟩ 1 "t2" "d2" "krimi" none).1.contents.find?
        (fun c => c.id == 1)
      = some { (⟨1, "t", "d", "sifi", "/old.png", 4, 0, "t"⟩ : ContentRow) with
          title := "t2", description := "d2", category := "krimi" }) :=
  ⟨by decide, by decide,
    updateContent_image_semantics _ 1 "t2" "d2" "krimi"
      ⟨1, "t", "d", "sifi", "/old.png", 4, 0, "t"⟩ (by decide) (by decide)⟩

lemma updRow_frame_elem (l : List ContentRow) (id : Nat)
    (F : ContentRow → ContentRow)
    (hid : ∀ c, (F c).id = c.id) (hslug : ∀ c, (F c).slug = c.slug)
    (hown : ∀ c, (F c).owner_id = c.owner_id)
    (hcr : ∀ c, (F c).created_at = c.created_at) (i : Nat) :
    ((l.map fun c => if c.id == id then F c else c)[i]?.map fun c => c.id)
        = (l[i]?.map fun c => c.id) ∧
    ((l.map fun c => if c.id == id then F c else c)[i]?.map fun c => c.slug)
        = (l[i]?.map fun c => c.slug) ∧
    ((l.map fun c => if c.id == id then F c else c)[i]?.map fun c => c.owner_id)
        = (l[i]?.map fun c => c.owner_id) ∧
    ((l.map fun c => if c.id == id then F c else c)[i]?.map
        fun c => c.created_at)
        = (l[i]?.map fun c => c.created_at) ∧
    ∀ c : ContentRow, l[i]? = some c → c.id ≠ id →
      (l.map fun c => if c.id == id then F c else c)[i]? = some c := by
  rw [List.getElem?_map]
  cases hl : l[i]? with
  | none => simp
  | some c =>
    by_cases hc : c.id = id
    · refine ⟨by simp [hc, hid], by simp [hc, hslug], by simp [hc, hown],
        by simp [hc, hcr], ?_⟩
      intro c2 he hne
      obtain rfl : c = c2 := by simpa using he
      exact absurd hc hne
    · refine ⟨by simp [hc], by simp [hc], by simp [hc], by simp [hc], ?_⟩
      intro c2 he hne
      obtain rfl : c = c2 := by simpa using he
      simp [hc]

/-- **C10.** `updateContent` changes at most title, description, category
and image reference of the addressed row: users, likes and favorites are
untouched, the content list keeps its length, every row keeps its id, slug,
owner and creation time (so changing the title does not regenerate the
slug), and every row whose id differs from the addressed one is entirely
unchanged. -/
theorem updateContent_frame (st : Store) (id : Nat) (t d cat : String)
    (img : Option String) :
    (updateContent st id t d cat img).1.users = st.users ∧
    (updateContent st id t d cat img).1.likes = st.likes ∧
    (updateContent st id t d cat img).1.favorites = st.favorites ∧
    (updateContent st id t d cat img).1.contents.length
      = st.contents.length ∧
    ∀ i : Nat,
      ((updateContent st id t d cat img).1.contents[i]?.map fun c => c.id)
          = (st.contents[i]?.map fun c => c.id) ∧
      ((updateContent st id t d cat img).1.contents[i]?.map fun c => c.slug)
          = (st.contents[i]?.map fun c => c.slug) ∧
      ((updateContent st id t d cat img).1.contents[i]?.map
          fun c => c.owner_id)
          = (st.contents[i]?.map fun c => c.owner_id) ∧
      ((updateContent st id t d cat img).1.contents[i]?.map
          fun c => c.created_at)
          = (st.contents[i]?.map fun c => c.created_at) ∧
      ∀ c : ContentRow, st.contents[i]? = some c → c.id ≠ id →
        (updateContent st id t d cat img).1.contents[i]? = some c := by
  by_cases hcat : cat ∈ CATEGORIES
  · have main : ∀ (F : ContentRow → ContentRow),
        (∀ c, (F c).id = c.id) → (∀ c, (F c).slug = c.slug) →
        (∀ c, (F c).owner_id = c.owner_id) →
        (∀ c, (F c).created_at = c.created_at) →
        (updateContent st id t d cat img).1
            = { st with contents := st.contents.map fun c =>
                if c.id == id then F c else c } →
        (updateContent st id t d cat img).1.users = st.users ∧
        (updateContent st id t d cat img).1.likes = st.likes ∧
        (updateContent st id t d cat img).1.favorites = st.favorites ∧
        (updateContent st id t d cat img).1.contents.length
          = st.contents.length ∧
        ∀ i : Nat,
          ((updateContent st id t d cat img).1.contents[i]?.map fun c => c.id)
              = (st.contents[i]?.map fun c => c.id) ∧
          ((updateContent st id t d cat img).1.contents[i]?.map
              fun c => c.slug)
              = (st.contents[i]?.map fun c => c.slug) ∧
          ((updateContent st id t d cat img).1.contents[i]?.map
              fun c => c.owner_id)
              = (st.contents[i]?.map fun c => c.owner_id) ∧
          ((updateContent st id t d cat img).1.contents[i]?.map
              fun c => c.created_at)
              = (st.contents[i]?.map fun c => c.created_at) ∧
          ∀ c : ContentRow, st.contents[i]? = some c → c.id ≠ id →
            (updateContent st id t d cat img).1.contents[i]? = some c := by
      intro F h1 h2 h3 h4 hc
      rw [hc]
      exact ⟨rfl, rfl, rfl, by simp,
        fun i => updRow_frame_elem st.contents id F h1 h2 h3 h4 i⟩
    cases img with
    | none =>
      have hres : (updateContent st id t d cat none).1
          = { st with contents := st.contents.map fun c =>
              if c.id == id then
                { c with title := t, description := d, category := cat }
              else c } := by
        unfold updateContent
        rw [if_pos hcat]
      exact main (fun c => { c with title := t, description := d, category := cat })
        (fun c => rfl) (fun c => rfl) (fun c => rfl) (fun c => rfl) hres
    | some p =>
      by_cases hp : p = ""
      · have hres : (updateContent st id t d cat (some p)).1
            = { st with contents := st.contents.map fun c =>
                if c.id == id then
                  { c with title := t, description := d, category := cat }
                else c } := by
          unfold updateContent
          rw [if_pos hcat]
          simp [hp]
        exact main (fun c => { c with title := t, description := d, category := cat })
          (fun c => rfl) (fun c => rfl) (fun c => rfl) (fun c => rfl) hres
      · have hres : (updateContent st id t d cat (some p)).1
            = { st with contents := st.contents.map fun c =>
                if c.id == id then
                  { c with title := t, description := d, category := cat, image_path := p }
                else c } := by
          unfold updateContent
          rw [if_pos hcat]
          simp [hp]
        exact main
          (fun c => { c with title := t, description := d, category := cat, image_path := p })
          (fun c => rfl) (fun c => rfl) (fun c => rfl) (fun c => rfl) hres
  · have hres : updateContent st id t d cat img = (st, .error .checkViolation) := by
      unfold updateContent
      rw [if_neg hcat]
    rw [hres]
    exact ⟨rfl, rfl, rfl, rfl,
      fun i => ⟨rfl, rfl, rfl, rfl, fun c hc _ => hc⟩⟩

/-- **C10 witness.** `updateContent_frame` instantiated at a two-row store
and inspected at index 1 (the row not addressed by the update). -/
theorem updateContent_frame_witness :
    ((updateContent ⟨[], [⟨1, "a", "d", "sifi", "p", 4, 0, "a"⟩,
        ⟨2, "b", "e", "krimi", "q", 5, 1, "b"⟩], [], [], 1, 3, 2⟩
        1 "t2" "d2" "horror" none).1.contents[1]?.map fun c => c.slug)
      = ((⟨[], [⟨1, "a", "d", "sifi", "p", 4, 0, "a"⟩,
        ⟨2, "b", "e", "krimi", "q", 5, 1, "b"⟩], [], [], 1, 3, 2⟩ :
          Store).contents[1]?.map fun c => c.slug) ∧
    (⟨[], [⟨1, "a", "d", "sifi", "p", 4, 0, "a"⟩,
        ⟨2, "b", "e", "krimi", "q", 5, 1, "b"⟩], [], [], 1, 3, 2⟩ :
        Store).contents[1]? = some ⟨2, "b", "e", "krimi", "q", 5, 1, "b"⟩ ∧
    (2 : Nat) ≠ 1 ∧
    (updateContent ⟨[], [⟨1, "a", "d", "sifi", "p", 4, 0, "a"⟩,
        ⟨2, "b", "e", "krimi", "q", 5, 1, "b"⟩], [], [], 1, 3, 2⟩
        1 "t2" "d2" "horror" none).1.contents[1]?
      = some ⟨2, "b", "e", "krimi", "q", 5, 1, "b"⟩ := by
  have h := updateContent_frame ⟨[], [⟨1, "a", "d", "sifi", "p", 4, 0, "a"⟩,
    ⟨2, "b", "e", "krimi", "q", 5, 1, "b"⟩], [], [], 1, 3, 2⟩ 1 "t2" "d2"
    "horror" none
  refine ⟨(h.2.2.2.2 1).2.1, by decide, by decide, ?_⟩
  exact (h.2.2.2.2 1).2.2.2.2 ⟨2, "b", "e", "krimi", "q", 5, 1, "b"⟩
    (by decide) (by decide)

/-! ### Case-insensitive e-mail uniqueness (C5) -/

/-- **C5.** Creating a user whose e-mail differs only in ASCII letter case
from a stored user's e-mail fails with a uniqueness violation and inserts no
row (the store is unchanged); users with absent (NULL) e-mail are exempt
from the unique index, so an insert without an e-mail always succeeds, no
matter how many e-mail-less users already exist. -/
theorem createUser_email_nocase (st : Store) (n n2 e e2 : String)
    (ph ph2 : Option String) (role : String) (u : UserRow)
    (hrole : role ∈ ROLES) (hu : u ∈ st.users) (he : u.email = some e)
    (hcase : foldCase e2 = foldCase e) :
    createUser st n (some e2) ph role
      = (st, Except.error DbError.uniqueViolation) ∧
    (createUser st n2 none ph2 "user").2 = Except.ok st.nextUserId ∧
    (createUser st n2 none ph2 "user").1.users
      = st.users ++ [⟨st.nextUserId, n2, "user", st.now, none, ph2⟩] := by
  have hconf : emailConflict st (some e2) = true := by
    unfold emailConflict
    rw [List.any_eq_true]
    refine ⟨u, hu, ?_⟩
    rw [he]
    simp [hcase]
  refine ⟨?_, ?_, ?_⟩
  · unfold createUser
    rw [if_pos hrole, if_pos hconf]
  · unfold createUser
    simp [ROLES, emailConflict]
  · unfold createUser
    simp [ROLES, emailConflict]

/-- **C5 witness.** `createUser_email_nocase` at a store holding one user
with e-mail `max@mail.de`, attempting to create `MAX@mail.de`. -/
theorem createUser_email_nocase_witness :
    "user" ∈ ROLES ∧
    (⟨1, "Max", "user", 0, some "max@mail.de", some "h"⟩ : UserRow)
      ∈ (⟨[⟨1, "Max", "user", 0, some "max@mail.de", some "h"⟩], [], [], [],
          2, 1, 1⟩ : Store).users ∧
    foldCase "MAX@mail.de" = foldCase "max@mail.de" ∧
    (createUser ⟨[⟨1, "Max", "user", 0, some "max@mail.de", some "h"⟩],
        [], [], [], 2, 1, 1⟩ "Moritz" (some "MAX@mail.de") (some "h2") "user"
      = (⟨[⟨1, "Max", "user", 0, some "max@mail.de", some "h"⟩],
          [], [], [], 2, 1, 1⟩, Except.error DbError.uniqueViolation) ∧
    (createUser ⟨[⟨1, "Max", "user", 0, some "max@mail.de", some "h"⟩],
        [], [], [], 2, 1, 1⟩ "Nomail" none (some "h3") "user").2
      = Except.ok 2 ∧
    (createUser ⟨[⟨1, "Max", "user", 0, some "max@mail.de", some "h"⟩],
        [], [], [], 2, 1, 1⟩ "Nomail" none (some "h3") "user").1.users
      = [⟨1, "Max", "user", 0, some "max@mail.de", some "h"⟩]
          ++ [⟨2, "Nomail", "user", 1, none, some "h3"⟩]) :=
  ⟨by decide, by decide, by decide,
    createUser_email_nocase ⟨[⟨1, "Max", "user", 0, some "max@mail.de", some "h"⟩],
        [], [], [], 2, 1, 1⟩ "Moritz" "Nomail" "max@mail.de" "MAX@mail.de"
      (some "h2") (some "h3") "user"
      ⟨1, "Max", "user", 0, some "max@mail.de", some "h"⟩
      (by decide) (by decide) (by decide) (by decide)⟩

/-! ### E-mail lookup is case-sensitive (C6) -/

lemma find?_email_exact (l : List UserRow) (u : UserRow) (e : String)
    (hp : l.Pairwise fun a b => ∀ ea eb, a.email = some ea →
      b.email = some eb → foldCase ea ≠ foldCase eb)
    (hu : u ∈ l) (he : u.email = some e) :
    l.find? (fun v => v.email == some e) = some u := by
  induction l with
  | nil => simp at hu
  | cons a t ih =>
    rw [List.pairwise_cons] at hp
    obtain ⟨ha, hp2⟩ := hp
    rcases List.mem_cons.mp hu with rfl | hut
    · have hpa : (u.email == some e) = true := by simp [he]
      rw [List.find?_cons, hpa]
    · by_cases haq : (a.email == some e) = true
      · exfalso
        have hae : a.email = some e := by simpa using haq
        exact ha u hut e e hae he rfl
      · have haq2 : (a.email == some e) = false := by
          cases hb : (a.email == some e)
          · rfl
          · exact absurd hb haq
        rw [List.find?_cons, haq2]
        exact ih hp2 hut

/-- **C6 counterexample.** The claim predicts that a lookup with an e-mail
differing only in letter case from a stored one returns the stored row; the
code compares `email = ?` under the column's BINARY collation, so the
lookup with `"MAX@mail.de"` returns nothing although `"max@mail.de"` is
stored. -/
theorem getUserByEmail_not_case_insensitive :
    (⟨1, "Max", "user", 0, some "max@mail.de", some "h"⟩ : UserRow)
      ∈ (⟨[⟨1, "Max", "user", 0, some "max@mail.de", some "h"⟩], [], [], [],
          2, 1, 1⟩ : Store).users ∧
    foldCase "MAX@mail.de" = foldCase "max@mail.de" ∧
    getUserByEmail ⟨[⟨1, "Max", "user", 0, some "max@mail.de", some "h"⟩],
        [], [], [], 2, 1, 1⟩ "MAX@mail.de" = none :=
  ⟨by decide, by decide, by decide⟩

/-- **C6 (amended).** `getUserByEmail` is an exact-match (case-sensitive)
lookup: under the NOCASE unique-index invariant, querying with exactly the
stored e-mail string returns that user's full row including
`password_hash`, and a query string equal to no stored e-mail returns an
absent result, never an error. -/
theorem getUserByEmail_exact (st : Store) (u : UserRow) (e : String)
    (hinv : EmailsNocaseUnique st) (hu : u ∈ st.users)
    (he : u.email = some e) :
    getUserByEmail st e = some u ∧
    ∀ e2 : String, (∀ v ∈ st.users, v.email ≠ some e2) →
      getUserByEmail st e2 = none := by
  constructor
  · exact find?_email_exact st.users u e hinv hu he
  · intro e2 h
    unfold getUserByEmail
    rw [List.find?_eq_none]
    intro v hv
    simp [h v hv]

/-- **C6 witness.** `getUserByEmail_exact` at a concrete one-user store:
the exact query returns the row with its hash, and an unmatched query
returns `none`. -/
theorem getUserByEmail_exact_witness :
    EmailsNocaseUnique ⟨[⟨1, "Max", "user", 0, some "max@mail.de", some "h"⟩],
      [], [], [], 2, 1, 1⟩ ∧
    (⟨1, "Max", "user", 0, some "max@mail.de", some "h"⟩ : UserRow)
      ∈ (⟨[⟨1, "Max", "user", 0, some "max@mail.de", some "h"⟩], [], [], [],
          2, 1, 1⟩ : Store).users ∧
    (getUserByEmail ⟨[⟨1, "Max", "user", 0, some "max@mail.de", some "h"⟩],
        [], [], [], 2, 1, 1⟩ "max@mail.de"
      = some ⟨1, "Max", "user", 0, some "max@mail.de", some "h"⟩ ∧
    ((∀ v ∈ (⟨[⟨1, "Max", "user", 0, some "max@mail.de", some "h"⟩], [], [],
        [], 2, 1, 1⟩ : Store).users, v.email ≠ some "erika@mail.de") →
      getUserByEmail ⟨[⟨1, "Max", "user", 0, some "max@mail.de", some "h"⟩],
        [], [], [], 2, 1, 1⟩ "erika@mail.de" = none)) :=
  ⟨by unfold EmailsNocaseUnique; simp, by decide,
    (getUserByEmail_exact ⟨[⟨1, "Max", "user", 0, some "max@mail.de", some "h"⟩],
        [], [], [], 2, 1, 1⟩ ⟨1, "Max", "user", 0, some "max@mail.de", some "h"⟩
      "max@mail.de" (by unfold EmailsNocaseUnique; simp) (by decide)
      (by decide)).1,
    fun hv => (getUserByEmail_exact
        ⟨[⟨1, "Max", "user", 0, some "max@mail.de", some "h"⟩],
          [], [], [], 2, 1, 1⟩
        ⟨1, "Max", "user", 0, some "max@mail.de", some "h"⟩ "max@mail.de"
        (by unfold EmailsNocaseUnique; simp) (by decide) (by decide)).2
      "erika@mail.de" hv⟩

/-! ### Like-sorted listing (C7) -/

/-- **C7.** `listContentsFiltered` with no category filter, no owner filter
and `sort = "likes"` returns exactly the set of all contents (the returned
ids are a permutation of the stored ids), sorted by like count descending
with ties broken by creation time and then id, both descending, and every
returned row's `likeCount` equals the number of `likes` rows of that
content. -/
theorem listContentsFiltered_likes_order (st : Store) :
    ((listContentsFiltered st none none "likes").map fun r => r.id).Perm
        (st.contents.map fun c => c.id) ∧
    List.Sorted likesDescLe (listContentsFiltered st none none "likes") ∧
    ∀ r ∈ listContentsFiltered st none none "likes",
      r.likeCount = getLikeCount st r.id := by
  have hflt : st.contents.filter (filteredWhere none none) = st.contents :=
    List.filter_eq_self.mpr fun c hc => rfl
  have hout : listContentsFiltered st none none "likes"
      = (st.contents.map (contentItem st)).insertionSort likesDescLe := by
    unfold listContentsFiltered
    rw [if_pos rfl, hflt]
  refine ⟨?_, ?_, ?_⟩
  · rw [hout]
    have hperm := (List.perm_insertionSort likesDescLe
      (st.contents.map (contentItem st))).map fun r => r.id
    refine hperm.trans ?_
    rw [List.map_map]
    exact List.Perm.refl _
  · rw [hout]
    exact List.sorted_insertionSort likesDescLe _
  · intro r hr
    rw [hout, List.mem_insertionSort, List.mem_map] at hr
    obtain ⟨c, hc, rfl⟩ := hr
    rfl

/-- **C7 witness.** `listContentsFiltered_likes_order` at a store with two
contents, the second liked once. -/
theorem listContentsFiltered_likes_order_witness :
    ((listContentsFiltered ⟨[], [⟨1, "a", "d", "sifi", "p", 4, 0, "a"⟩,
          ⟨2, "b", "e", "krimi", "q", 5, 1, "b"⟩], [⟨4, 2, 2⟩], [], 1, 3, 3⟩
        none none "likes").map fun r => r.id).Perm
        ((⟨[], [⟨1, "a", "d", "sifi", "p", 4, 0, "a"⟩,
          ⟨2, "b", "e", "krimi", "q", 5, 1, "b"⟩], [⟨4, 2, 2⟩], [], 1, 3, 3⟩ :
            Store).contents.map fun c => c.id) ∧
    List.Sorted likesDescLe (listContentsFiltered ⟨[],
        [⟨1, "a", "d", "sifi", "p", 4, 0, "a"⟩,
          ⟨2, "b", "e", "krimi", "q", 5, 1, "b"⟩], [⟨4, 2, 2⟩], [], 1, 3, 3⟩
        none none "likes") ∧
    ∀ r ∈ listContentsFiltered ⟨[], [⟨1, "a", "d", "sifi", "p", 4, 0, "a"⟩,
          ⟨2, "b", "e", "krimi", "q", 5, 1, "b"⟩], [⟨4, 2, 2⟩], [], 1, 3, 3⟩
        none none "likes",
      r.likeCount = getLikeCount ⟨[], [⟨1, "a", "d", "sifi", "p", 4, 0, "a"⟩,
          ⟨2, "b", "e", "krimi", "q", 5, 1, "b"⟩], [⟨4, 2, 2⟩], [], 1, 3, 3⟩
        r.id :=
  listContentsFiltered_likes_order ⟨[], [⟨1, "a", "d", "sifi", "p", 4, 0, "a"⟩,
    ⟨2, "b", "e", "krimi", "q", 5, 1, "b"⟩], [⟨4, 2, 2⟩], [], 1, 3, 3⟩

/-! ### Fallback mode (C9) -/

/-- **C9 counterexample.** The claim says every store operation degrades to
an empty result without a database, but `getAllUsers` returns the three
static fallback users. -/
theorem getAllUsersNoDb_nonempty :
    getAllUsersNoDb ≠ [] ∧ getAllUsersNoDb.length = 3 :=
  ⟨by decide, by decide⟩

/-- **C9 (amended).** Without a database every store operation except
`getAllUsers` degrades to an empty result — list operations return an empty
sequence, lookups an absent result, counts zero, toggles and membership
probes `false` — while `getAllUsers` returns the three static fallback
users with `email` null. -/
theorem fallback_results :
    insertUserNoDb = none ∧ getUserByEmailNoDb = none ∧
    createUserNoDb = none ∧ listContentsNoDb = [] ∧
    insertContentNoDb = none ∧ getContentBySlugNoDb = none ∧
    getContentByIdNoDb = none ∧ updateContentNoDb = 0 ∧
    deleteContentByIdNoDb = 0 ∧ getLikeCountNoDb = 0 ∧
    hasUserLikedNoDb = false ∧ toggleLikeNoDb = (false, 0) ∧
    getUserLikedIdsNoDb = [] ∧ isFavoriteNoDb = false ∧
    toggleFavoriteNoDb = false ∧ listFavoritesOfUserNoDb = [] ∧
    listAuthorsNoDb = [] ∧ listContentsFilteredNoDb = [] ∧
    getAllUsersNoDb = [⟨1, "DB", "admin", "2024-11-02", none⟩,
      ⟨2, "Fallback", "user", "2025-01-15", none⟩,
      ⟨3, "Data", "editor", "2025-07-01", none⟩] :=
  ⟨rfl, rfl, rfl, rfl, rfl, rfl, rfl, rfl, rfl, rfl, rfl, rfl, rfl, rfl,
    rfl, rfl, rfl, rfl, by decide⟩

end MovieApp
